import Mathlib

/-!
Shallow embedding of the betamax record/replay engine core: the serializer
(`serialize_response` / `deserialize_response` / `serialize_prepared_request` /
`deserialize_prepared_request`), the matcher registry populated in
`betamax/matchers/__init__.py`, the cassette lookup (`findMatch`), the
recording-mode controller, and cassette `save`.  Parts of the repository not
present under `src/` (the `betamax.cassette` module and the individual matcher
classes) are modelled from the specification, as marked on each definition.
-/

namespace Betamax

/-- Bytes are modelled as natural numbers; a text byte is `< 128`. -/
abbrev Byte := Nat

/-- Modelled from the spec: the HTTP client object model's request, exposing
`\x7bmethod, url, headers, body\x7d` (§3, §6).  Headers are an ordered mapping of
header-name to value; the body is a byte sequence or absent. -/
structure HTTPRequest where
  method : String
  url : String
  headers : List (String × String)
  body : Option (List Byte)
deriving DecidableEq, Repr

/-- Modelled from the spec: the HTTP client object model's response, exposing
`\x7bstatus_code, headers, content, url, encoding\x7d` (§3, §6). -/
structure HTTPResponse where
  status_code : Nat
  encoding : Option String
  headers : List (String × String)
  url : String
  content : List Byte
deriving DecidableEq, Repr

/-- A plain nested-dictionary value, the portable form the serializer targets
(§4.1): strings, numbers, null, nested dictionaries, and binary-safe tagged
byte payloads (the reversible base64-style fallback for non-text bodies). -/
inductive JVal where
  | str : String → JVal
  | num : Nat → JVal
  | null : JVal
  | dict : List (String × JVal) → JVal
  | arr : List JVal → JVal
  | bin : List Byte → JVal
deriving Repr

/-- A serialized dictionary: an ordered string-keyed association list,
modelling a Python `dict` (insertion order preserved, keys unique). -/
abbrev JDict := List (String × JVal)

/-- First-match lookup in an association list, modelling `d[k]` / `d.get(k)`. -/
def alistLookup {α : Type} (d : List (String × α)) (k : String) : Option α :=
  match d with
  | [] => none
  | (k', v) :: rest => if k' = k then some v else alistLookup rest k

/-- Insertion modelling Python `dict` assignment: overwrite in place if the
key already exists, otherwise append at the end. -/
def alistInsert {α : Type} (d : List (String × α)) (k : String) (v : α) :
    List (String × α) :=
  match d with
  | [] => [(k, v)]
  | (k', v') :: rest =>
      if k' = k then (k, v) :: rest else (k', v') :: alistInsert rest k v

/-- `dict.update` over a list of entries: repeated insertion, so a later entry
with the same key overwrites an earlier one (last write wins). -/
def alistUpdate {α : Type} (d : List (String × α))
    (entries : List (String × α)) : List (String × α) :=
  entries.foldl (fun acc kv => alistInsert acc kv.1 kv.2) d

/-- Decode a byte sequence as text under the default encoding: succeeds
exactly when every byte is a 7-bit character. -/
def decodeBytes (bs : List Byte) : Option String :=
  if bs.all (fun b => b < 128) then some ⟨bs.map Char.ofNat⟩ else none

/-- Encode a text string back to its byte sequence. -/
def encodeString (s : String) : List Byte :=
  s.data.map Char.toNat

/-- Serialize a body: stored as text when decodable under the default
encoding, otherwise kept under a reversible binary-safe tagged encoding
(§4.1). -/
def encodeBody (bs : List Byte) : JVal :=
  match decodeBytes bs with
  | some s => JVal.str s
  | none => JVal.bin bs

/-- Malformed stored data: a required field is missing or has the wrong
shape (§7). -/
inductive DeserializationError where
  | missingKey : String → DeserializationError
  | wrongShape : String → DeserializationError
deriving DecidableEq, Repr

/-- Read a required integer field; a missing key is an error, never a
default. -/
def reqNat (d : JDict) (k : String) : Except DeserializationError Nat :=
  match alistLookup d k with
  | some (.num n) => .ok n
  | some _ => .error (.wrongShape k)
  | none => .error (.missingKey k)

/-- Read a required string field; a missing key is an error, never a
default. -/
def reqStr (d : JDict) (k : String) : Except DeserializationError String :=
  match alistLookup d k with
  | some (.str s) => .ok s
  | some _ => .error (.wrongShape k)
  | none => .error (.missingKey k)

/-- Rebuild a flattened string-to-string header mapping from its dictionary
form, failing if any value is not a string. -/
def headersOfJ : JDict → Option (List (String × String))
  | [] => some []
  | (k, .str v) :: rest => (headersOfJ rest).map (fun t => (k, v) :: t)
  | _ => none

/-- Read the required `headers` field of a serialized dictionary. -/
def reqHeaders (d : JDict) : Except DeserializationError (List (String × String)) :=
  match alistLookup d "headers" with
  | some (.dict hs) =>
      match headersOfJ hs with
      | some l => .ok l
      | none => .error (.wrongShape "headers")
  | some _ => .error (.wrongShape "headers")
  | none => .error (.missingKey "headers")

/-- Read the required `content` field: the recorded body, stored either as
decoded text or as the tagged binary-safe encoding. -/
def reqContent (d : JDict) : Except DeserializationError (List Byte) :=
  match alistLookup d "content" with
  | some (.str s) => .ok (encodeString s)
  | some (.bin bs) => .ok bs
  | some _ => .error (.wrongShape "content")
  | none => .error (.missingKey "content")

/-- Read the optional `encoding` field (§3 marks encoding as optional). -/
def optEncoding (d : JDict) : Option String :=
  match alistLookup d "encoding" with
  | some (.str e) => some e
  | _ => none

/-- Read the optional request `body` field; absence round-trips to an absent
body, a stored empty string to an empty body (§4.1). -/
def optBody (d : JDict) : Except DeserializationError (Option (List Byte)) :=
  match alistLookup d "body" with
  | some (.str s) => .ok (some (encodeString s))
  | some (.bin bs) => .ok (some bs)
  | some .null => .ok none
  | some _ => .error (.wrongShape "body")
  | none => .ok none

/-- Modelled from the spec: `cassette.serialize_response` (the
`betamax.cassette` module is not under `src/`).  Produces the plain
dictionary with keys `status_code, encoding, headers, url, content`
(§4.1, and the shape asserted by `test_serialize_response`). -/
def serialize_response (r : HTTPResponse) : JDict :=
  [("status_code", JVal.num r.status_code),
   ("encoding", match r.encoding with | some e => JVal.str e | none => JVal.null),
   ("headers", JVal.dict (r.headers.map (fun kv => (kv.1, JVal.str kv.2)))),
   ("url", JVal.str r.url),
   ("content", encodeBody r.content)]

/-- Modelled from the spec: `cassette.deserialize_response`.  Reconstructs a
response whose `content` is the exact original bytes; required fields are
never silently defaulted (§4.1, §7). -/
def deserialize_response (d : JDict) : Except DeserializationError HTTPResponse :=
  match reqNat d "status_code" with
  | .error e => .error e
  | .ok sc =>
    match reqStr d "url" with
    | .error e => .error e
    | .ok url =>
      match reqHeaders d with
      | .error e => .error e
      | .ok hs =>
        match reqContent d with
        | .error e => .error e
        | .ok content => .ok ⟨sc, optEncoding d, hs, url, content⟩

/-- Modelled from the spec: `cassette.serialize_prepared_request`.  Produces
the plain dictionary with keys `method, url, headers, body` (§4.1). -/
def serialize_prepared_request (r : HTTPRequest) : JDict :=
  [("method", JVal.str r.method),
   ("url", JVal.str r.url),
   ("headers", JVal.dict (r.headers.map (fun kv => (kv.1, JVal.str kv.2)))),
   ("body", match r.body with | some bs => encodeBody bs | none => JVal.null)]

/-- Modelled from the spec: `cassette.deserialize_prepared_request`.
Reconstructs method, URL, headers and body; `method` and `url` are required
and never defaulted (§4.1, §7). -/
def deserialize_prepared_request (d : JDict) :
    Except DeserializationError HTTPRequest :=
  match reqStr d "method" with
  | .error e => .error e
  | .ok m =>
    match reqStr d "url" with
    | .error e => .error e
    | .ok url =>
      match reqHeaders d with
      | .error e => .error e
      | .ok hs =>
        match optBody d with
        | .error e => .error e
        | .ok b => .ok ⟨m, url, hs, b⟩

/-- Boolean test for the error case of an `Except`. -/
def isErr {ε α : Type} : Except ε α → Bool
  | .error _ => true
  | .ok _ => false

/-- A named matcher: a pure predicate comparing a candidate request to a
stored interaction's recorded request (§3, §4.2). -/
structure Matcher where
  name : String
  matchOn : HTTPRequest → HTTPRequest → Bool

/-- The part of a URL after the scheme separator. -/
def urlAfterScheme (u : String) : String :=
  match u.splitOn "://" with
  | _ :: r :: _ => r
  | _ => u

/-- The host (with any port) component of a URL. -/
def urlHost (u : String) : String :=
  (urlAfterScheme u).takeWhile (fun c => !(c == '/') && !(c == '?'))

/-- The path component of a URL. -/
def urlPath (u : String) : String :=
  ((urlAfterScheme u).dropWhile (fun c => !(c == '/') && !(c == '?'))).takeWhile
    (fun c => !(c == '?'))

/-- The query component of a URL. -/
def urlQuery (u : String) : String :=
  match u.splitOn "?" with
  | _ :: r :: _ => r
  | _ => ""

/-- The `k=v` pieces of a query string. -/
def queryPairs (q : String) : List String :=
  if q = "" then [] else q.splitOn "&"

/-- Order-insensitive comparison of two lists viewed as sets. -/
def setEq (l1 l2 : List String) : Bool :=
  l1.all (fun x => l2.contains x) && l2.all (fun x => l1.contains x)

/-- Order-insensitive comparison of two key/value lists viewed as sets. -/
def pairSetEq (l1 l2 : List (String × String)) : Bool :=
  l1.all (fun x => l2.contains x) && l2.all (fun x => l1.contains x)

/-- Lower-case all header names, for case-insensitive key comparison. -/
def lowerHeaders (hs : List (String × String)) : List (String × String) :=
  hs.map (fun kv => (kv.1.toLower, kv.2))

/-- Case-insensitive header lookup on a request. -/
def headerValue (r : HTTPRequest) (k : String) : Option String :=
  match r.headers.find? (fun kv => kv.1.toLower == k.toLower) with
  | some kv => some kv.2
  | none => none

/-- The components of a digest Authorization header value, with the
per-request `nonce`/`cnonce` components dropped (§4.2). -/
def digestComponents (v : String) : List String :=
  ((v.splitOn ",").map (fun s => s.trim)).filter
    (fun s => !(s.startsWith "nonce=") && !(s.startsWith "cnonce="))

/-- Modelled from the spec: `BodyMatcher` (class file not under `src/`) —
exact byte comparison of the request bodies (§4.2). -/
def bodyMatcher : Matcher :=
  ⟨"body", fun cand stored => cand.body.getD [] == stored.body.getD []⟩

/-- Modelled from the spec: `DigestAuthMatcher` — compares Authorization
header components ignoring the nonce/cnonce that vary per request (§4.2). -/
def digestAuthMatcher : Matcher :=
  ⟨"digest-auth", fun cand stored =>
    match headerValue cand "Authorization", headerValue stored "Authorization" with
    | some a, some b => setEq (digestComponents a) (digestComponents b)
    | none, none => true
    | _, _ => false⟩

/-- Modelled from the spec: `HeadersMatcher` — header comparison with
case-insensitive keys (§4.2). -/
def headersMatcher : Matcher :=
  ⟨"headers", fun cand stored =>
    pairSetEq (lowerHeaders cand.headers) (lowerHeaders stored.headers)⟩

/-- Modelled from the spec: `HostMatcher` — compares URL hosts (§4.2). -/
def hostMatcher : Matcher :=
  ⟨"host", fun cand stored => urlHost cand.url == urlHost stored.url⟩

/-- Modelled from the spec: `MethodMatcher` — compares HTTP methods (§4.2). -/
def methodMatcher : Matcher :=
  ⟨"method", fun cand stored => cand.method == stored.method⟩

/-- Modelled from the spec: `PathMatcher` — compares URL paths (§4.2). -/
def pathMatcher : Matcher :=
  ⟨"path", fun cand stored => urlPath cand.url == urlPath stored.url⟩

/-- Modelled from the spec: `QueryMatcher` — order-insensitive key/value set
comparison of the query strings (§4.2). -/
def queryMatcher : Matcher :=
  ⟨"query", fun cand stored =>
    setEq (queryPairs (urlQuery cand.url)) (queryPairs (urlQuery stored.url))⟩

/-- Modelled from the spec: `URIMatcher` — compares the URI
(scheme+host+port+path+query) as one unit (§4.2). -/
def uriMatcher : Matcher :=
  ⟨"uri", fun cand stored => cand.url == stored.url⟩

/-- From `betamax/matchers/__init__.py`: the `_matchers` registration list
`[BodyMatcher, DigestAuthMatcher, HeadersMatcher, HostMatcher, MethodMatcher,
PathMatcher, QueryMatcher, URIMatcher]`, each entry the single instance `m()`
constructed at import time.  The class-level `name` attributes are modelled
from the spec (the class files are not under `src/`). -/
def builtinMatchers : List Matcher :=
  [bodyMatcher, digestAuthMatcher, headersMatcher, hostMatcher,
   methodMatcher, pathMatcher, queryMatcher, uriMatcher]

/-- From `betamax/matchers/__init__.py` line 21:
`matcher_registry.update(dict((m.name, m()) for m in _matchers))` applied to
the initially empty registry dictionary. -/
def matcher_registry : List (String × Matcher) :=
  alistUpdate [] (builtinMatchers.map (fun m => (m.name, m)))

/-- The matcher conjunction (§4.2): every configured matcher must accept the
pair.  `List.all` short-circuits on the first failure. -/
def matchesAll (ms : List Matcher) (cand stored : HTTPRequest) : Bool :=
  ms.all (fun m => m.matchOn cand stored)

/-- Modelled from the spec: one recorded request/response pair plus metadata
(§3); only `playbackCount` mutates during a session. -/
structure Interaction where
  request : HTTPRequest
  response : HTTPResponse
  recorded_at : String
  playbackCount : Nat
deriving DecidableEq, Repr

/-- Increment an interaction's playback counter. -/
def bump (i : Interaction) : Interaction :=
  { i with playbackCount := i.playbackCount + 1 }

/-- The four recording modes (§4.4). -/
inductive RecordMode where
  | record_once
  | record_new
  | record_none
  | record_all
deriving DecidableEq, Repr

/-- Modelled from the spec: the cassette (§3) — ordered interactions, fixed
recording mode, configured matchers, once-only playback policy, dirty flag,
and whether storage was empty at load time (used by `RECORD_ONCE`). -/
structure Cassette where
  name : String
  format : String
  interactions : List Interaction
  recordMode : RecordMode
  matchers : List Matcher
  playOnce : Bool
  dirty : Bool
  emptyAtLoad : Bool

/-- An interaction is eligible for playback when the full matcher
conjunction holds and, under the once-only policy, it has not yet been
played back (§4.3). -/
def eligible (playOnce : Bool) (ms : List Matcher) (r : HTTPRequest)
    (i : Interaction) : Bool :=
  matchesAll ms r i.request && (!playOnce || i.playbackCount == 0)

/-- Modelled from the spec: the scan inside `findMatch` (§4.3) — first
eligible interaction in recording order wins; on a hit its playback counter
is incremented in place. -/
def findMatchAux (playOnce : Bool) (ms : List Matcher) (r : HTTPRequest) :
    List Interaction → Option (Interaction × List Interaction)
  | [] => none
  | i :: rest =>
      if eligible playOnce ms r i then
        some (bump i, bump i :: rest)
      else
        match findMatchAux playOnce ms r rest with
        | none => none
        | some (m, rest') => some (m, i :: rest')

/-- Modelled from the spec: `Cassette.findMatch` (§4.3).  Returns the first
eligible interaction (with its playback counter incremented) together with
the updated cassette, or `none` when nothing matches. -/
def Cassette.findMatch (c : Cassette) (r : HTTPRequest) :
    Option (Interaction × Cassette) :=
  match findMatchAux c.playOnce c.matchers r c.interactions with
  | none => none
  | some (i, l) => some (i, { c with interactions := l })

/-- Modelled from the spec: `Cassette.append` (§4.3) — adds at the end and
marks the cassette dirty. -/
def Cassette.append (c : Cassette) (i : Interaction) : Cassette :=
  { c with interactions := c.interactions ++ [i], dirty := true }

/-- Replay errors surfaced by the recording-mode controller (§7). -/
inductive ReplayError where
  | noMatchFound
deriving DecidableEq, Repr

/-- Modelled from the spec: the live HTTP transport collaborator (§6), as a
call-counting stub — `send` produces the stubbed response and counts the
call (§8's verification device for `RECORD_NONE`). -/
structure Transport where
  respond : HTTPRequest → HTTPResponse
  calls : Nat

/-- One synchronous live call; the counter records that the collaborator was
invoked. -/
def Transport.send (t : Transport) (r : HTTPRequest) : HTTPResponse × Transport :=
  (t.respond r, { t with calls := t.calls + 1 })

/-- Forward the request to the live transport, append the fresh interaction
(stamped `now`) and mark the cassette dirty (§4.4). -/
def recordLive (c : Cassette) (t : Transport) (r : HTTPRequest) (now : String) :
    Except ReplayError HTTPResponse × Cassette × Transport :=
  let (resp, t') := t.send r
  (Except.ok resp, c.append ⟨r, resp, now, 0⟩, t')

/-- Modelled from the spec: the recording-mode controller's decision table
(§4.4) for one outgoing request. -/
def handleRequest (c : Cassette) (t : Transport) (r : HTTPRequest) (now : String) :
    Except ReplayError HTTPResponse × Cassette × Transport :=
  match c.recordMode with
  | .record_all => recordLive c t r now
  | _ =>
      match c.findMatch r with
      | some (i, c') => (Except.ok i.response, c', t)
      | none =>
          match c.recordMode with
          | .record_none => (Except.error ReplayError.noMatchFound, c, t)
          | .record_new => recordLive c t r now
          | .record_once =>
              if c.emptyAtLoad then recordLive c t r now
              else (Except.error ReplayError.noMatchFound, c, t)
          | .record_all => recordLive c t r now

mutual

/-- Print a serialized value as structured text, the storage byte form that
`save()` writes in one full rewrite (§5, §6). -/
def jvalToString : JVal → String
  | .str s => "\"" ++ s ++ "\""
  | .num n => toString n
  | .null => "null"
  | .dict entries => "\x7b" ++ dictToString entries ++ "\x7d"
  | .arr vs => "[" ++ arrToString vs ++ "]"
  | .bin bs => "\"base64:" ++ String.intercalate "," (bs.map toString) ++ "\""

/-- Print the entries of a serialized dictionary. -/
def dictToString : List (String × JVal) → String
  | [] => ""
  | [(k, v)] => "\"" ++ k ++ "\": " ++ jvalToString v
  | (k, v) :: rest =>
      "\"" ++ k ++ "\": " ++ jvalToString v ++ ", " ++ dictToString rest

/-- Print the elements of a serialized sequence. -/
def arrToString : List JVal → String
  | [] => ""
  | [v] => jvalToString v
  | v :: rest => jvalToString v ++ ", " ++ arrToString rest

end

/-- One interaction in storage form: `\x7brequest, response, recorded_at\x7d`
(§6). -/
def serializeInteraction (i : Interaction) : JVal :=
  JVal.dict [("request", JVal.dict (serialize_prepared_request i.request)),
             ("response", JVal.dict (serialize_response i.response)),
             ("recorded_at", JVal.str i.recorded_at)]

/-- The cassette document: top-level `http_interactions` sequence plus
`recorded_with` metadata (§6). -/
def serializeDocument (interactions : List Interaction) : JVal :=
  JVal.dict [("http_interactions", JVal.arr (interactions.map serializeInteraction)),
             ("recorded_with", JVal.str "betamax")]

/-- The storage bytes written for a list of interactions. -/
def printDocument (interactions : List Interaction) : String :=
  jvalToString (serializeDocument interactions)

/-- Whether the recording mode forces a rewrite even without new appends
(`RECORD_ALL` always fully overwrites, §4.4 and design note). -/
def forcesWrite : RecordMode → Bool
  | .record_all => true
  | _ => false

/-- Modelled from the spec: `Cassette.save` (§4.3) — serializes the full
interaction sequence to storage only if dirty or the mode forces a write, a
no-op otherwise.  Storage content is passed and returned explicitly. -/
def Cassette.save (c : Cassette) (storage : String) : Cassette × String :=
  if c.dirty || forcesWrite c.recordMode then
    ({ c with dirty := false }, printDocument c.interactions)
  else (c, storage)

/-- Split a buffer into chunks of size `n + 1`. -/
def chunksOf (n : Nat) (l : List Byte) : List (List Byte) :=
  match l with
  | [] => []
  | x :: xs => (x :: xs.take n) :: chunksOf n (xs.drop n)
termination_by l.length
decreasing_by simp; omega

/-- Modelled from the spec: the reusable in-memory buffer backing a replayed
response body (the `MockHTTPResponse` the tests see behind `r.raw`), in
place of a one-shot stream (§4.1, design note). -/
structure MockHTTPResponse where
  buffer : List Byte
deriving DecidableEq, Repr

/-- Read the whole body; the buffer stays available for further reads. -/
def MockHTTPResponse.read (b : MockHTTPResponse) : List Byte × MockHTTPResponse :=
  (b.buffer, b)

/-- Read the body in chunks of size `n + 1`; the buffer stays available. -/
def MockHTTPResponse.readChunked (b : MockHTTPResponse) (n : Nat) :
    List (List Byte) × MockHTTPResponse :=
  (chunksOf n b.buffer, b)

/-- Modelled from the spec: `add_urllib3_response` wires the recorded bytes
into the in-memory buffer that backs the deserialized response's body. -/
def responseRaw (r : HTTPResponse) : MockHTTPResponse :=
  ⟨r.content⟩

/-- The response fixture of `test_serialize_response`: status 200, utf-8,
empty headers, body bytes `b"foo"`. -/
def fooResponse : HTTPResponse :=
  ⟨200, some "utf-8", [], "http://example.com", [102, 111, 111]⟩

/-- The stored dictionary fixture of `test_deserialize_response`. -/
def storedResponseDict : JDict :=
  [("content", JVal.str "foo"),
   ("encoding", JVal.str "utf-8"),
   ("headers", JVal.dict [("Content-Type", JVal.str "application/json")]),
   ("url", JVal.str "http://example.com/"),
   ("status_code", JVal.num 200),
   ("recorded_at", JVal.str "2013-08-31T00:00:01")]

/-- The response that `storedResponseDict` deserializes to. -/
def storedResponse : HTTPResponse :=
  ⟨200, some "utf-8", [("Content-Type", "application/json")],
   "http://example.com/", [102, 111, 111]⟩

/-- A candidate `GET http://example.com/` request (§8). -/
def getExampleRequest : HTTPRequest :=
  ⟨"GET", "http://example.com/", [], none⟩

/-- A recorded `POST http://example.com/` request (§8). -/
def postExampleRequest : HTTPRequest :=
  ⟨"POST", "http://example.com/", [], none⟩

/-- A recorded interaction pairing the GET request with `fooResponse`. -/
def fooInteraction : Interaction :=
  ⟨getExampleRequest, fooResponse, "2013-08-31T00:00:00", 0⟩

/-- A once-only cassette holding exactly `fooInteraction`, in `RECORD_NONE`. -/
def sampleCassette : Cassette :=
  ⟨"test_cassette", "json", [fooInteraction], RecordMode.record_none,
   [methodMatcher, uriMatcher], true, true, false⟩

/-- A `RECORD_NONE` cassette with zero stored interactions (§8). -/
def emptyCassette : Cassette :=
  ⟨"test_cassette", "json", [], RecordMode.record_none,
   [methodMatcher, uriMatcher], true, false, true⟩

/-- A call-counting transport stub (§8). -/
def stubTransport : Transport :=
  ⟨fun _ => fooResponse, 0⟩

end Betamax

namespace Betamax

theorem char_toNat_ofNat (b : Nat) (h : b < 128) : (Char.ofNat b).toNat = b := by
  have hv : b.isValidChar := Or.inl (by omega)
  simp [Char.ofNat, hv, Char.ofNatAux, Char.toNat]
  rfl

theorem encodeString_decodeBytes (bs : List Byte) (s : String)
    (h : decodeBytes bs = some s) : encodeString s = bs := by
  unfold decodeBytes at h
  split at h
  · rename_i hall
    cases h
    simp only [encodeString]
    show (bs.map Char.ofNat).map Char.toNat = bs
    rw [List.map_map]
    simp only [List.all_eq_true, decide_eq_true_eq] at hall
    induction bs with
    | nil => rfl
    | cons b rest ih =>
        simp only [List.map_cons, Function.comp_apply]
        rw [char_toNat_ofNat b (hall b (by simp)), ih (fun x hx => hall x (by simp [hx]))]
  · cases h

theorem headersOfJ_roundtrip (hs : List (String × String)) :
    headersOfJ (hs.map (fun kv => (kv.1, JVal.str kv.2))) = some hs := by
  induction hs with
  | nil => rfl
  | cons kv rest ih => simp [headersOfJ, ih]

theorem deserialize_serialize_response (r : HTTPResponse) :
    deserialize_response (serialize_response r) = Except.ok r := by
  obtain ⟨sc, enc, hs, url, content⟩ := r
  cases enc <;>
  · simp only [deserialize_response, serialize_response, reqNat, reqStr, reqHeaders,
      reqContent, optEncoding, alistLookup, String.reduceEq, reduceIte, encodeBody]
    rw [headersOfJ_roundtrip]
    cases hdec : decodeBytes content <;>
      simp [hdec, encodeString_decodeBytes]
    all_goals exact encodeString_decodeBytes content _ hdec

theorem reqNat_ok (d : JDict) (k : String) (n : Nat) (h : reqNat d k = .ok n) :
    alistLookup d k = some (JVal.num n) := by
  unfold reqNat at h
  cases hl : alistLookup d k <;> rw [hl] at h
  · exact absurd h (by simp)
  · rename_i v; cases v <;> simp_all

theorem reqStr_ok (d : JDict) (k : String) (s : String) (h : reqStr d k = .ok s) :
    alistLookup d k = some (JVal.str s) := by
  unfold reqStr at h
  cases hl : alistLookup d k <;> rw [hl] at h
  · exact absurd h (by simp)
  · rename_i v; cases v <;> simp_all

theorem reqHeaders_ok (d : JDict) (hs : List (String × String))
    (h : reqHeaders d = .ok hs) : (alistLookup d "headers").isSome = true := by
  unfold reqHeaders at h
  cases hl : alistLookup d "headers" <;> rw [hl] at h
  · exact absurd h (by simp)
  · simp

theorem reqContent_ok (d : JDict) (bs : List Byte)
    (h : reqContent d = .ok bs) : (alistLookup d "content").isSome = true := by
  unfold reqContent at h
  cases hl : alistLookup d "content" <;> rw [hl] at h
  · exact absurd h (by simp)
  · simp

theorem deserialize_response_ok (d : JDict) (r : HTTPResponse)
    (h : deserialize_response d = .ok r) :
    reqNat d "status_code" = .ok r.status_code
    ∧ reqStr d "url" = .ok r.url
    ∧ reqHeaders d = .ok r.headers
    ∧ reqContent d = .ok r.content
    ∧ r.encoding = optEncoding d := by
  unfold deserialize_response at h
  cases hsc : reqNat d "status_code" <;> rw [hsc] at h
  · exact absurd h (by simp)
  cases hu : reqStr d "url" <;> rw [hu] at h
  · exact absurd h (by simp)
  cases hh : reqHeaders d <;> rw [hh] at h
  · exact absurd h (by simp)
  cases hc : reqContent d <;> rw [hc] at h
  · exact absurd h (by simp)
  obtain ⟨⟩ := Except.ok.inj h
  exact ⟨rfl, rfl, rfl, rfl, rfl⟩

theorem deserialize_request_ok (d : JDict) (p : HTTPRequest)
    (h : deserialize_prepared_request d = Except.ok p) :
    reqStr d "method" = .ok p.method ∧ reqStr d "url" = .ok p.url := by
  unfold deserialize_prepared_request at h
  cases hm : reqStr d "method" <;> rw [hm] at h
  · exact absurd h (by simp)
  cases hu : reqStr d "url" <;> rw [hu] at h
  · exact absurd h (by simp)
  cases hh : reqHeaders d <;> rw [hh] at h
  · exact absurd h (by simp)
  cases hb : optBody d <;> rw [hb] at h
  · exact absurd h (by simp)
  obtain ⟨⟩ := Except.ok.inj h
  exact ⟨rfl, rfl⟩

theorem findMatchAux_none_iff (p : Bool) (ms : List Matcher) (r : HTTPRequest)
    (l : List Interaction) :
    findMatchAux p ms r l = none ↔ ∀ i ∈ l, eligible p ms r i = false := by
  induction l with
  | nil => simp [findMatchAux]
  | cons i rest ih =>
      cases he : eligible p ms r i
      · cases hrest : findMatchAux p ms r rest with
        | none =>
            simp only [findMatchAux, he, Bool.false_eq_true, if_false, hrest]
            simp [he]
            exact ih.mp hrest
        | some v =>
            simp only [findMatchAux, he, Bool.false_eq_true, if_false, hrest]
            constructor
            · intro h
              exact absurd h (by cases v; simp)
            · intro h
              have h2 := ih.mpr (fun j hj => h j (List.mem_cons_of_mem i hj))
              rw [h2] at hrest
              cases hrest
      · simp [findMatchAux, he]

theorem findMatchAux_some (p : Bool) (ms : List Matcher) (r : HTTPRequest)
    (l : List Interaction) (i' : Interaction) (l' : List Interaction)
    (h : findMatchAux p ms r l = some (i', l')) :
    ∃ k, ∃ hk : k < l.length,
      eligible p ms r (l.get ⟨k, hk⟩) = true
      ∧ (∀ j, ∀ hj : j < l.length, j < k → eligible p ms r (l.get ⟨j, hj⟩) = false)
      ∧ i' = bump (l.get ⟨k, hk⟩)
      ∧ l' = l.set k i' := by
  induction l generalizing i' l' with
  | nil => simp [findMatchAux] at h
  | cons i rest ih =>
      rw [findMatchAux] at h
      cases he : eligible p ms r i
      · rw [he] at h
        simp only [Bool.false_eq_true, if_false] at h
        cases hrest : findMatchAux p ms r rest with
        | none => rw [hrest] at h; cases h
        | some v =>
            obtain ⟨m, rest'⟩ := v
            rw [hrest] at h
            obtain ⟨hm, hl⟩ := Prod.mk.injEq .. ▸ Option.some.inj h
            subst hm hl
            obtain ⟨k, hk, h1, h2, h3, h4⟩ := ih _ _ hrest
            refine ⟨k + 1, by simpa using Nat.succ_lt_succ hk, ?_, ?_, ?_, ?_⟩
            · simpa using h1
            · intro j hj hjk
              cases j with
              | zero => simpa using he
              | succ j =>
                  exact h2 j (by simpa using Nat.lt_of_succ_lt_succ hj)
                    (Nat.lt_of_succ_lt_succ hjk)
            · simpa using h3
            · simp [h4]
      · rw [he] at h
        simp only [if_true] at h
        obtain ⟨hm, hl⟩ := Prod.mk.injEq .. ▸ Option.some.inj h
        refine ⟨0, by simp, by simpa using he, by omega, by simp [hm], ?_⟩
        simp [← hl, ← hm]

theorem alistLookup_insert {α : Type} (d : List (String × α)) (k : String) (v : α) :
    alistLookup (alistInsert d k v) k = some v := by
  induction d with
  | nil => simp [alistInsert, alistLookup]
  | cons kv rest ih =>
      obtain ⟨k', v'⟩ := kv
      by_cases hk : k' = k
      · simp [alistInsert, alistLookup, hk]
      · simp [alistInsert, alistLookup, hk, ih]

theorem chunksOf_flatten (n : Nat) (l : List Byte) : (chunksOf n l).flatten = l := by
  have h : ∀ (len : Nat) (l : List Byte), l.length = len → (chunksOf n l).flatten = l := by
    intro len
    induction len using Nat.strong_induction_on with
    | _ len ih =>
        intro l hlen
        cases l with
        | nil => simp [chunksOf]
        | cons x xs =>
            rw [chunksOf]
            simp only [List.flatten_cons]
            rw [ih ((xs.drop n).length) (by subst hlen; simp; omega) _ rfl]
            simp [List.take_append_drop]
  exact h l.length l rfl

end Betamax

namespace Betamax

/-- C1: `findMatch` scans the interactions in recording order and returns the
first eligible interaction (full matcher conjunction, and `playbackCount = 0`
under the once-only policy), incrementing its playback counter; a first match
yields `playbackCount 1` and a second identical call under the once-only
policy returns `none`; no match returns `none` rather than an error. -/
theorem findMatch_first_match_wins (c : Cassette) (r : HTTPRequest) :
    (c.findMatch r = none ↔ ∀ i ∈ c.interactions, eligible c.playOnce c.matchers r i = false)
  ∧ (∀ i' c', c.findMatch r = some (i', c') →
      ∃ k, ∃ hk : k < c.interactions.length,
        eligible c.playOnce c.matchers r (c.interactions.get ⟨k, hk⟩) = true
        ∧ (∀ j, ∀ hj : j < c.interactions.length, j < k →
            eligible c.playOnce c.matchers r (c.interactions.get ⟨j, hj⟩) = false)
        ∧ i' = bump (c.interactions.get ⟨k, hk⟩)
        ∧ i'.playbackCount = (c.interactions.get ⟨k, hk⟩).playbackCount + 1
        ∧ c'.interactions = c.interactions.set k i')
  ∧ (∀ i, c.interactions = [i] → c.playOnce = true →
      matchesAll c.matchers r i.request = true → i.playbackCount = 0 →
      c.findMatch r = some (bump i, { c with interactions := [bump i] })
      ∧ (bump i).playbackCount = 1
      ∧ ({ c with interactions := [bump i] } : Cassette).findMatch r = none) := by
  refine ⟨?_, ?_, ?_⟩
  · have h1 : c.findMatch r = none ↔
        findMatchAux c.playOnce c.matchers r c.interactions = none := by
      unfold Cassette.findMatch
      cases haux : findMatchAux c.playOnce c.matchers r c.interactions with
      | none => simp
      | some v => cases v; simp
    rw [h1, findMatchAux_none_iff]
  · intro i' c' h
    unfold Cassette.findMatch at h
    cases haux : findMatchAux c.playOnce c.matchers r c.interactions with
    | none => rw [haux] at h; cases h
    | some v =>
        obtain ⟨m, l'⟩ := v
        rw [haux] at h
        obtain ⟨hm, hc⟩ := Prod.mk.injEq .. ▸ Option.some.inj h
        subst hm
        obtain ⟨k, hk, h1, h2, h3, h4⟩ := findMatchAux_some _ _ _ _ _ _ haux
        exact ⟨k, hk, h1, h2, h3, by rw [h3]; simp [bump], by rw [← hc, ← h4]⟩
  · intro i hint hpo hm hpc
    have he : eligible c.playOnce c.matchers r i = true := by
      simp [eligible, hm, hpo, hpc]
    refine ⟨?_, by simp [bump, hpc], ?_⟩
    · unfold Cassette.findMatch
      rw [hint]
      simp [findMatchAux, he]
    · unfold Cassette.findMatch
      simp [findMatchAux, eligible, hpo, bump, hpc]

/-- Concrete instantiation of `findMatch_first_match_wins`: on the once-only
sample cassette, the first lookup returns the interaction with playback
count 1 and the second identical lookup returns `none`. -/
theorem findMatch_first_match_wins_witness :
    sampleCassette.findMatch getExampleRequest
      = some (bump fooInteraction, { sampleCassette with interactions := [bump fooInteraction] })
    ∧ (bump fooInteraction).playbackCount = 1
    ∧ ({ sampleCassette with interactions := [bump fooInteraction] } : Cassette).findMatch
        getExampleRequest = none :=
  (findMatch_first_match_wins sampleCassette getExampleRequest).2.2 fooInteraction
    rfl rfl rfl rfl

/-- C2: under `RECORD_NONE` the live transport is never invoked — a `findMatch`
hit replays the stored response, a miss surfaces `NoMatchFoundError`, and with
zero stored interactions every request fails with the transport called zero
times. -/
theorem record_none_never_calls_transport (c : Cassette) (t : Transport)
    (r : HTTPRequest) (now : String)
    (hmode : c.recordMode = RecordMode.record_none) :
    (handleRequest c t r now).2.2 = t
  ∧ (handleRequest c t r now).2.2.calls = t.calls
  ∧ (∀ i c', c.findMatch r = some (i, c') →
      (handleRequest c t r now).1 = Except.ok i.response)
  ∧ (c.findMatch r = none →
      (handleRequest c t r now).1 = Except.error ReplayError.noMatchFound)
  ∧ (c.interactions = [] →
      (handleRequest c t r now).1 = Except.error ReplayError.noMatchFound
      ∧ (handleRequest c t r now).2.2.calls = t.calls) := by
  have hempty : c.interactions = [] → c.findMatch r = none := by
    intro h
    unfold Cassette.findMatch
    rw [h]
    simp [findMatchAux]
  have htr : (handleRequest c t r now).2.2 = t := by
    cases hfm : c.findMatch r with
    | none => simp [handleRequest, hmode, hfm]
    | some v => obtain ⟨i, c'⟩ := v; simp [handleRequest, hmode, hfm]
  refine ⟨htr, by rw [htr], ?_, ?_, ?_⟩
  · intro i c' h
    simp [handleRequest, hmode, h]
  · intro h
    simp [handleRequest, hmode, h]
  · intro h
    exact ⟨by simp [handleRequest, hmode, hempty h], by rw [htr]⟩

/-- Concrete instantiation of `record_none_never_calls_transport`: the empty
`RECORD_NONE` cassette fails a request with `NoMatchFoundError` and the
call-counting transport stub records zero calls. -/
theorem record_none_never_calls_transport_witness :
    (handleRequest emptyCassette stubTransport getExampleRequest "t0").1
      = Except.error ReplayError.noMatchFound
    ∧ (handleRequest emptyCassette stubTransport getExampleRequest "t0").2.2.calls
      = stubTransport.calls :=
  (record_none_never_calls_transport emptyCassette stubTransport getExampleRequest
    "t0" rfl).2.2.2.2 rfl

/-- C3: deserializing the serialized form of a response round-trips on
`status_code`, `encoding`, `headers` and `url`, and the body content is
byte-for-byte equal. -/
theorem response_roundtrip (r : HTTPResponse) :
    ∃ r', deserialize_response (serialize_response r) = Except.ok r'
      ∧ r'.status_code = r.status_code ∧ r'.encoding = r.encoding
      ∧ r'.headers = r.headers ∧ r'.url = r.url ∧ r'.content = r.content :=
  ⟨r, deserialize_serialize_response r, rfl, rfl, rfl, rfl, rfl⟩

/-- C4: a request matches an interaction iff every configured matcher accepts
the pair; permuting the matcher order never changes the boolean outcome; and
with matchers `\x7bmethod, uri\x7d` a candidate `GET http://example.com/` matches a
recorded GET and not a recorded POST of the same URL. -/
theorem matcher_conjunction (ms : List Matcher) (cand stored : HTTPRequest) :
    (matchesAll ms cand stored = true ↔ ∀ m ∈ ms, m.matchOn cand stored = true)
  ∧ (∀ ms', ms.Perm ms' → matchesAll ms cand stored = matchesAll ms' cand stored)
  ∧ matchesAll [methodMatcher, uriMatcher] getExampleRequest
      fooInteraction.request = true
  ∧ matchesAll [methodMatcher, uriMatcher] getExampleRequest
      postExampleRequest = false := by
  refine ⟨List.all_eq_true, ?_, rfl, rfl⟩
  intro ms' hperm
  apply Bool.eq_iff_iff.mpr
  rw [matchesAll, matchesAll, List.all_eq_true, List.all_eq_true]
  constructor
  · intro h m hm; exact h m (hperm.mem_iff.mpr hm)
  · intro h m hm; exact h m (hperm.mem_iff.mp hm)

/-- Concrete instantiation of `matcher_conjunction`: swapping the order of the
`method` and `uri` matchers leaves the boolean outcome unchanged. -/
theorem matcher_conjunction_witness :
    matchesAll [methodMatcher, uriMatcher] getExampleRequest fooInteraction.request
      = matchesAll [uriMatcher, methodMatcher] getExampleRequest fooInteraction.request :=
  (matcher_conjunction [methodMatcher, uriMatcher] getExampleRequest
    fooInteraction.request).2.1 [uriMatcher, methodMatcher]
    (List.Perm.swap uriMatcher methodMatcher [])

/-- C5: deserialization of a dictionary missing a required key fails with a
`DeserializationError`, and `status_code`, `method` and `url` are never
silently defaulted: a successful deserialization pins them to the stored
values. -/
theorem deserialization_never_defaults (d : JDict) :
    (alistLookup d "status_code" = none → isErr (deserialize_response d) = true)
  ∧ (alistLookup d "url" = none → isErr (deserialize_response d) = true)
  ∧ (alistLookup d "headers" = none → isErr (deserialize_response d) = true)
  ∧ (alistLookup d "content" = none → isErr (deserialize_response d) = true)
  ∧ (alistLookup d "method" = none → isErr (deserialize_prepared_request d) = true)
  ∧ (alistLookup d "url" = none → isErr (deserialize_prepared_request d) = true)
  ∧ (∀ r, deserialize_response d = Except.ok r →
      alistLookup d "status_code" = some (JVal.num r.status_code)
      ∧ alistLookup d "url" = some (JVal.str r.url))
  ∧ (∀ p, deserialize_prepared_request d = Except.ok p →
      alistLookup d "method" = some (JVal.str p.method)
      ∧ alistLookup d "url" = some (JVal.str p.url)) := by
  refine ⟨?_, ?_, ?_, ?_, ?_, ?_, ?_, ?_⟩
  · intro h
    cases hres : deserialize_response d with
    | error e => rw [isErr]
    | ok r =>
        have hx := (deserialize_response_ok d r hres).1
        simp [reqNat, h] at hx
  · intro h
    cases hres : deserialize_response d with
    | error e => rw [isErr]
    | ok r =>
        have hx := (deserialize_response_ok d r hres).2.1
        simp [reqStr, h] at hx
  · intro h
    cases hres : deserialize_response d with
    | error e => rw [isErr]
    | ok r =>
        have hx := (deserialize_response_ok d r hres).2.2.1
        simp [reqHeaders, h] at hx
  · intro h
    cases hres : deserialize_response d with
    | error e => rw [isErr]
    | ok r =>
        have hx := (deserialize_response_ok d r hres).2.2.2.1
        simp [reqContent, h] at hx
  · intro h
    cases hres : deserialize_prepared_request d with
    | error e => rw [isErr]
    | ok p =>
        have hx := (deserialize_request_ok d p hres).1
        simp [reqStr, h] at hx
  · intro h
    cases hres : deserialize_prepared_request d with
    | error e => rw [isErr]
    | ok p =>
        have hx := (deserialize_request_ok d p hres).2
        simp [reqStr, h] at hx
  · intro r h
    exact ⟨reqNat_ok d _ _ (deserialize_response_ok d r h).1,
           reqStr_ok d _ _ (deserialize_response_ok d r h).2.1⟩
  · intro p h
    exact ⟨reqStr_ok d _ _ (deserialize_request_ok d p h).1,
           reqStr_ok d _ _ (deserialize_request_ok d p h).2⟩

/-- Concrete instantiation of `deserialization_never_defaults`: the empty
dictionary deserializes to an error, not to a defaulted response. -/
theorem deserialization_never_defaults_witness :
    isErr (deserialize_response ([] : JDict)) = true :=
  (deserialization_never_defaults []).1 rfl

/-- C6: `save()` writes only when the cassette is dirty or the mode forces a
write and is a no-op otherwise; calling it twice with no intervening mutation
produces byte-identical storage output. -/
theorem save_idempotent (c : Cassette) (storage : String) :
    ((c.save storage).1.save (c.save storage).2).2 = (c.save storage).2
  ∧ ((c.save storage).1.save (c.save storage).2).1 = (c.save storage).1
  ∧ ((c.dirty || forcesWrite c.recordMode) = false → c.save storage = (c, storage))
  ∧ ((c.dirty || forcesWrite c.recordMode) = true →
      (c.save storage).2 = printDocument c.interactions) := by
  refine ⟨?_, ?_, ?_, ?_⟩ <;>
    cases hd : c.dirty <;> cases hf : forcesWrite c.recordMode <;>
      simp [Cassette.save, hd, hf]

/-- Concrete instantiation of `save_idempotent`: a clean `RECORD_NONE`
cassette's `save` is a no-op, and a dirty one writes the serialized
document. -/
theorem save_idempotent_witness :
    emptyCassette.save "stored" = (emptyCassette, "stored")
    ∧ (sampleCassette.save "stored").2 = printDocument sampleCassette.interactions :=
  ⟨(save_idempotent emptyCassette "stored").2.2.1 rfl,
   (save_idempotent sampleCassette "stored").2.2.2 rfl⟩

/-- C7: at import time the registry holds exactly the built-in matchers
`method`, `uri`, `host`, `path`, `query`, `headers`, `body` and `digest-auth`,
each resolvable by name. -/
theorem registry_populated_at_import :
    matcher_registry.map Prod.fst =
      ["body", "digest-auth", "headers", "host", "method", "path", "query", "uri"]
  ∧ (["method", "uri", "host", "path", "query", "headers", "body",
      "digest-auth"].all (fun n => (alistLookup matcher_registry n).isSome)) = true := by
  exact ⟨rfl, rfl⟩

/-- C8: a deserialized response's body is backed by a reusable in-memory
buffer: repeated whole-body reads and chunked reads all observe exactly the
recorded bytes. -/
theorem replay_body_rereadable (d : JDict) (r : HTTPResponse) (n : Nat)
    (h : deserialize_response d = Except.ok r) :
    (responseRaw r).read.1 = r.content
  ∧ ((responseRaw r).read.2).read.1 = r.content
  ∧ (((responseRaw r).readChunked n).2).read.1 = r.content
  ∧ ((responseRaw r).readChunked n).1.flatten = r.content :=
  ⟨rfl, rfl, rfl, chunksOf_flatten n r.content⟩

/-- Concrete instantiation of `replay_body_rereadable` on the stored response
fixture: every read observes the recorded bytes `b"foo"`. -/
theorem replay_body_rereadable_witness :
    (responseRaw storedResponse).read.1 = storedResponse.content
    ∧ ((responseRaw storedResponse).readChunked 0).1.flatten = storedResponse.content :=
  ⟨(replay_body_rereadable storedResponseDict storedResponse 0 rfl).1,
   (replay_body_rereadable storedResponseDict storedResponse 0 rfl).2.2.2⟩

/-- C9: after import the registry is exactly one entry per built-in matcher
class, keyed by the class-level name and holding the single instance
constructed at import time; duplicate names would resolve last-write-wins. -/
theorem registry_one_instance_per_class :
    matcher_registry =
      [("body", bodyMatcher), ("digest-auth", digestAuthMatcher),
       ("headers", headersMatcher), ("host", hostMatcher),
       ("method", methodMatcher), ("path", pathMatcher),
       ("query", queryMatcher), ("uri", uriMatcher)]
  ∧ matcher_registry.map Prod.fst = builtinMatchers.map Matcher.name
  ∧ ∀ (reg : List (String × Matcher)) (k : String) (v1 v2 : Matcher),
      alistLookup (alistUpdate reg [(k, v1), (k, v2)]) k = some v2 := by
  refine ⟨rfl, rfl, ?_⟩
  intro reg k v1 v2
  show alistLookup (alistInsert (alistInsert reg k v1) k v2) k = some v2
  exact alistLookup_insert _ k v2

/-- C10: the serialized response stores the body under the key `content` (not
`body`) as decoded text, an empty header mapping serializes as the empty
dictionary, and `deserialize_response` reads `content` back as bytes. -/
theorem serialized_content_key :
    alistLookup (serialize_response fooResponse) "content" = some (JVal.str "foo")
  ∧ alistLookup (serialize_response fooResponse) "body" = none
  ∧ alistLookup (serialize_response fooResponse) "headers" = some (JVal.dict [])
  ∧ deserialize_response storedResponseDict = Except.ok storedResponse
  ∧ storedResponse.content = encodeString "foo"
  ∧ encodeString "foo" = [102, 111, 111] :=
  ⟨rfl, rfl, rfl, rfl, rfl, rfl⟩

end Betamax
